import Mathlib

set_option maxHeartbeats 4000000
set_option maxRecDepth 8000

/-!
Verification of the OMML-to-LaTeX converter of this repository
(`omml_to_latex.py`) and of the math-emitting part of the document driver
(`docx2md.py`), against its natural-language specification.

The Python code is embedded shallowly:

* XML elements (the MathNode trees) become the inductive type `Element`
  (tag, attributes, optional text payload, ordered children).
* Every `re.sub(pattern, repl, text)` call becomes `subAll pat tmpl text`,
  where `pat` is a direct transcription of the regular expression into the
  small pattern language `RPiece` (literals, character classes with
  greedy `+`/`*`, capturing groups, word boundaries, lookarounds and
  anchors — exactly the features the source patterns use), and `tmpl`
  transcribes the replacement template.  `subAll` performs Python's
  leftmost, non-overlapping scan with greedy backtracking.
* Recursive tree walks (`convert_element`, the paragraph processors) take a
  fuel parameter bounding recursion depth; a `none` result means the
  recursion did not complete within the given depth (Python: a
  `RecursionError`, which the top-level entry point turns into the fallback
  string).  Python methods recurse through `self.convert_element`; here each
  per-kind converter receives the recursive conversion function as its
  first argument `conv`, and `convert_element` ties the knot.
-/

/-- Python whitespace (`\s` in its regexes, `str.strip`), restricted to the
ASCII range actually exercised by this program. -/
def pyIsSpace (c : Char) : Bool :=
  c = ' ' || c = '\t' || c = '\n' || c = '\r' || c = '\x0b' || c = '\x0c'

/-- Python word characters (`\w`, deciding `\b`), restricted to the
character repertoire this program handles: ASCII letters, digits,
underscore, and the Greek block (which Python's unicode `\w` also counts
as word characters). -/
def pyIsWordChar (c : Char) : Bool :=
  ('a' ≤ c && c ≤ 'z') || ('A' ≤ c && c ≤ 'Z') || ('0' ≤ c && c ≤ '9') || c = '_'
    || ('Α' ≤ c && c ≤ 'ω')

/-- Substring test on character lists (Python's `in` on strings). -/
def listIsSubstr (pat : List Char) : List Char → Bool
  | [] => pat.isEmpty
  | c :: rest => pat.isPrefixOf (c :: rest) || listIsSubstr pat rest

/-- Python `pat in s` for strings. -/
def isSubstrOf (pat s : String) : Bool := listIsSubstr pat.data s.data

/-- Python `str.strip()`. -/
def pyStrip (s : String) : String :=
  ⟨((s.data.dropWhile pyIsSpace).reverse.dropWhile pyIsSpace).reverse⟩

/-- Python `text.replace(key, val)` for a single-character pattern `key`
(every key of the converter's symbol table is one character, so
`str.replace` is exactly per-character substitution). -/
def pyReplaceChar (key : Char) (val : String) (s : String) : String :=
  ⟨s.data.flatMap (fun c => if c = key then val.data else [c])⟩

/-- Concatenation of a list of strings in order. -/
def concatStrings : List String → String
  | [] => ""
  | s :: l => s ++ concatStrings l

/-- Python `sep.join(parts)`. -/
def joinSep (sep : String) : List String → String
  | [] => ""
  | [s] => s
  | s :: l => s ++ sep ++ joinSep sep l

/-- A regex character class: `neg = true` for `[^…]`; membership is a listed
character or a listed inclusive range. -/
structure CClass where
  neg : Bool
  chars : List Char
  ranges : List (Char × Char)

def CClass.matchesC (k : CClass) (c : Char) : Bool :=
  let base := k.chars.contains c || k.ranges.any (fun r => r.1 ≤ c && c ≤ r.2)
  if k.neg then !base else base

/-- One piece of a regular expression, covering exactly the constructs used
by the Python patterns in this program.  Quantifiers (`+`, `*`) are applied
to character classes only, as in the source patterns. -/
inductive RPiece where
  | lit (s : String)
  | one (k : CClass)
  | plus (k : CClass)
  | star (k : CClass)
  | grpOne (k : CClass)
  | grpPlus (k : CClass)
  | grpLit (s : String)
  | wordB
  | lookAhead (positive : Bool) (k : CClass)
  | lookBehind (positive : Bool) (c : Char)
  | bos
  | eos

/-- Last character of `l`, else the previous context character. -/
def lastOr (prev : Option Char) (l : List Char) : Option Char :=
  match l.getLast? with
  | some c => some c
  | none => prev

/-- Python `\b`: a word character on exactly one side of the position. -/
def wordBoundaryAt (prev next : Option Char) : Bool :=
  (match prev with | some c => pyIsWordChar c | none => false)
    != (match next with | some c => pyIsWordChar c | none => false)

/-- Backtracking helper for greedy `+`/`*` over a class: try giving the
continuation `f` (matching of the remaining pieces) the position after `n`
consumed characters, then `n-1`, … down to `1`.  `cap` records whether the
quantified class is a capturing group. -/
def tryLens (f : Option Char → List Char → Option (List Char × List (List Char)))
    (prev : Option Char) (cap : Bool) (s : List Char) :
    Nat → Option (List Char × List (List Char))
  | 0 => none
  | n + 1 =>
      match f (lastOr prev (s.take (n + 1))) (s.drop (n + 1)) with
      | some (rest, gs) => some (rest, if cap then s.take (n + 1) :: gs else gs)
      | none => tryLens f prev cap s n

/-- Match a piece list at the current position.  `prev` is the character
just before the position in the ORIGINAL string (for `\b`, lookbehind and
`^`).  On success returns the remaining input and the captured groups in
order.  Greedy quantifiers backtrack from the longest candidate, as in
Python. -/
def matchPieces : List RPiece → Option Char → List Char → Option (List Char × List (List Char))
  | [], _, s => some (s, [])
  | .lit l :: ps, prev, s =>
      if l.data.isPrefixOf s then
        matchPieces ps (lastOr prev l.data) (s.drop l.data.length)
      else none
  | .grpLit l :: ps, prev, s =>
      if l.data.isPrefixOf s then
        (matchPieces ps (lastOr prev l.data) (s.drop l.data.length)).map
          (fun r => (r.1, l.data :: r.2))
      else none
  | .one k :: ps, _, s =>
      match s with
      | [] => none
      | c :: rest => if k.matchesC c then matchPieces ps (some c) rest else none
  | .grpOne k :: ps, _, s =>
      match s with
      | [] => none
      | c :: rest =>
          if k.matchesC c then
            (matchPieces ps (some c) rest).map (fun r => (r.1, [c] :: r.2))
          else none
  | .plus k :: ps, prev, s =>
      tryLens (matchPieces ps) prev false s (s.takeWhile k.matchesC).length
  | .grpPlus k :: ps, prev, s =>
      tryLens (matchPieces ps) prev true s (s.takeWhile k.matchesC).length
  | .star k :: ps, prev, s =>
      match tryLens (matchPieces ps) prev false s (s.takeWhile k.matchesC).length with
      | some r => some r
      | none => matchPieces ps prev s
  | .wordB :: ps, prev, s =>
      if wordBoundaryAt prev s.head? then matchPieces ps prev s else none
  | .lookAhead positive k :: ps, prev, s =>
      let ok := match s.head? with | some c => k.matchesC c | none => false
      if (if positive then ok else !ok) then matchPieces ps prev s else none
  | .lookBehind positive c :: ps, prev, s =>
      let ok := prev = some c
      if (if positive then ok else !ok) then matchPieces ps prev s else none
  | .bos :: ps, prev, s => if prev = none then matchPieces ps prev s else none
  | .eos :: ps, prev, s => if s.isEmpty then matchPieces ps prev s else none

/-- One item of a `re.sub` replacement template: literal text or a
(1-indexed) group reference. -/
inductive TItem where
  | s (str : String)
  | g (n : Nat)

def renderTmpl (gs : List (List Char)) : List TItem → List Char
  | [] => []
  | .s str :: t => str.data ++ renderTmpl gs t
  | .g n :: t => ((gs.get? (n - 1)).getD []) ++ renderTmpl gs t

/-- Python `re.sub`: scan left to right; at each position try the pattern;
on a match emit the rendered replacement and continue right after the
matched text, otherwise copy one character.  (Every pattern in this
program consumes at least one character, so empty matches need no special
case; the guard keeps the scan well-defined regardless.)  The first `Nat`
argument is recursion fuel; `subAll` passes the input length, which always
suffices because every step strictly shortens the remaining input. -/
def subAllGo (p : List RPiece) (t : List TItem) : Nat → Option Char → List Char → List Char
  | 0, _, s => s
  | _ + 1, _, [] => []
  | fuel + 1, prev, c :: rest =>
      match matchPieces p prev (c :: rest) with
      | some (rem, gs) =>
          if rem.length < rest.length + 1 then
            renderTmpl gs t ++
              subAllGo p t fuel (lastOr prev ((c :: rest).take (rest.length + 1 - rem.length))) rem
          else
            c :: subAllGo p t fuel (some c) rest
      | none => c :: subAllGo p t fuel (some c) rest

def subAll (p : List RPiece) (t : List TItem) (s : String) : String :=
  ⟨subAllGo p t s.data.length none s.data⟩

/-! ### Character classes used by the source patterns -/

def clsNotRParen : CClass := ⟨true, [')'], []⟩
def clsNotRBrace : CClass := ⟨true, ['\x7d'], []⟩
def clsAlpha : CClass := ⟨false, [], [('a', 'z'), ('A', 'Z')]⟩
def clsAlnum : CClass := ⟨false, [], [('a', 'z'), ('A', 'Z'), ('0', '9')]⟩
def clsUpper : CClass := ⟨false, [], [('A', 'Z')]⟩
def clsAlphaUnderscore : CClass := ⟨false, ['_'], [('a', 'z'), ('A', 'Z')]⟩
def clsNotPipeParen : CClass := ⟨true, ['|', ')'], []⟩
def clsPipe : CClass := ⟨false, ['|'], []⟩
def clsNotBackslash : CClass := ⟨true, ['\\'], []⟩
def clsWs : CClass := ⟨false, [' ', '\t', '\n', '\r', '\x0b', '\x0c'], []⟩

/-! ### Patterns of `convert_text` (omml_to_latex.py lines 396-400) -/

/-- `#\([^)]+\)` — equation numbers like `#(2-1)`. -/
def patHashParen : List RPiece := [.lit "#(", .plus clsNotRParen, .lit ")"]

/-- `(?<!\\)#(?![a-zA-Z])` — standalone hash marks. -/
def patStandaloneHash : List RPiece :=
  [.lookBehind false '\\', .lit "#", .lookAhead false clsAlpha]

/-! ### Patterns of `fix_mathematical_notation` (lines 407-456), in source order -/

/-- `\bE_` -/
def patEUnderscore : List RPiece := [.wordB, .lit "E_"]
/-- `\bE\s*\[` -/
def patEBracket : List RPiece := [.wordB, .lit "E", .star clsWs, .lit "["]
/-- `\{E\}` -/
def patBraceE : List RPiece := [.lit "\x7bE\x7d"]
/-- `\bmax_` -/
def patMaxUnderscore : List RPiece := [.wordB, .lit "max_"]
/-- `\bmin_` -/
def patMinUnderscore : List RPiece := [.wordB, .lit "min_"]
/-- `\barg\s*max_` -/
def patArgMaxUnderscore : List RPiece := [.wordB, .lit "arg", .star clsWs, .lit "max_"]
/-- `\barg\s*min_` -/
def patArgMinUnderscore : List RPiece := [.wordB, .lit "arg", .star clsWs, .lit "min_"]
/-- `\\underset\{([^}]+)\}\{max\}` -/
def patUndersetMax : List RPiece :=
  [.lit "\\underset\x7b", .grpPlus clsNotRBrace, .lit "\x7d\x7bmax\x7d"]
/-- `\\underset\{([^}]+)\}\{min\}` -/
def patUndersetMin : List RPiece :=
  [.lit "\\underset\x7b", .grpPlus clsNotRBrace, .lit "\x7d\x7bmin\x7d"]
/-- `=-_\{([^}]+)\}` -/
def patEqMinusSum : List RPiece := [.lit "=-_\x7b", .grpPlus clsNotRBrace, .lit "\x7d"]
/-- `=_\{([^}]+)\}` -/
def patEqSum : List RPiece := [.lit "=_\x7b", .grpPlus clsNotRBrace, .lit "\x7d"]
/-- `KL\s*\(([^)]+)\\parallel([^)]+)\)` -/
def patKLParallel : List RPiece :=
  [.lit "KL", .star clsWs, .lit "(", .grpPlus clsNotRParen, .lit "\\parallel",
   .grpPlus clsNotRParen, .lit ")"]
/-- `KL\s*\(([^)]+)\|\|([^)]+)\)` -/
def patKLPipes : List RPiece :=
  [.lit "KL", .star clsWs, .lit "(", .grpPlus clsNotRParen, .lit "||",
   .grpPlus clsNotRParen, .lit ")"]
/-- `KL\s*\(([^)]+)\)` -/
def patKLParen : List RPiece :=
  [.lit "KL", .star clsWs, .lit "(", .grpPlus clsNotRParen, .lit ")"]
/-- `([a-zA-Z_]+)\s*\(([^|)]+)([|])([^)]+)\)` -/
def patCondProb : List RPiece :=
  [.grpPlus clsAlphaUnderscore, .star clsWs, .lit "(", .grpPlus clsNotPipeParen,
   .grpOne clsPipe, .grpPlus clsNotRParen, .lit ")"]
/-- `\bL_` -/
def patLUnderscore : List RPiece := [.wordB, .lit "L_"]
/-- `\bD\b` -/
def patDWord : List RPiece := [.wordB, .lit "D", .wordB]
/-- `p_([a-zA-Z])\(` -/
def patProbSub : List RPiece := [.lit "p_", .grpOne clsAlpha, .lit "("]
/-- `\blog\s+` -/
def patLogWord : List RPiece := [.wordB, .lit "log", .plus clsWs]
/-- `\\in([A-Z])` -/
def patInUpper : List RPiece := [.lit "\\in", .grpOne clsUpper]
/-- `\\log\{\{p\}\}_\{([^}]+)\}\\left\(\s*yx,I\s*\\right\)` -/
def patLogPP : List RPiece :=
  [.lit "\\log\x7b\x7bp\x7d\x7d_\x7b", .grpPlus clsNotRBrace, .lit "\x7d\\left(",
   .star clsWs, .lit "yx,I", .star clsWs, .lit "\\right)"]
/-- `\\log\{p\}_\{([^}]+)\}\\left\(\s*yx,I\s*\\right\)` -/
def patLogP : List RPiece :=
  [.lit "\\log\x7bp\x7d_\x7b", .grpPlus clsNotRBrace, .lit "\x7d\\left(",
   .star clsWs, .lit "yx,I", .star clsWs, .lit "\\right)"]

/-! ### Patterns of `clean_subscript_notation` (lines 251-263) -/

/-- `\(([^)]+)\)\s*∈\s*([A-Z])` -/
def patParenInUpper : List RPiece :=
  [.lit "(", .grpPlus clsNotRParen, .lit ")", .star clsWs, .lit "∈", .star clsWs,
   .grpOne clsUpper]
/-- `\(([^)]+)\)\s*∈\s*\\mathcal\{([A-Z])\}` -/
def patParenInMathcal : List RPiece :=
  [.lit "(", .grpPlus clsNotRParen, .lit ")", .star clsWs, .lit "∈", .star clsWs,
   .lit "\\mathcal\x7b", .grpOne clsUpper, .lit "\x7d"]
/-- `∈` -/
def patInChar : List RPiece := [.lit "∈"]

/-! ### Patterns of `clean_latex_output` / `fix_common_latex_issues` (lines 486-554) -/

/-- `#\\left\([^)]+\\right\)` -/
def patHashLeftRight : List RPiece :=
  [.lit "#\\left(", .plus clsNotRParen, .lit "\\right)"]
/-- `−` (unicode minus) -/
def patMinusSign : List RPiece := [.lit "−"]
/-- `p_\{([^}]+)\}\(([^|)]+)\|([^)]+)\)` -/
def patProbSubCond : List RPiece :=
  [.lit "p_\x7b", .grpPlus clsNotRBrace, .lit "\x7d(", .grpPlus clsNotPipeParen,
   .lit "|", .grpPlus clsNotRParen, .lit ")"]
/-- `\\mathbb\\mathbb\{E\}` -/
def patMathbb2E : List RPiece := [.lit "\\mathbb\\mathbb\x7bE\x7d"]
/-- `\\mathbb\\mathbb\\mathbb\{E\}` -/
def patMathbb3E : List RPiece := [.lit "\\mathbb\\mathbb\\mathbb\x7bE\x7d"]
/-- `([^\\])∥` -/
def patParallelMid : List RPiece := [.grpOne clsNotBackslash, .lit "∥"]
/-- `^∥` -/
def patParallelStart : List RPiece := [.bos, .lit "∥"]
/-- `\{ℒ\}` -/
def patBraceScriptL : List RPiece := [.lit "\x7bℒ\x7d"]
/-- `ℒ_` -/
def patScriptLUnderscore : List RPiece := [.lit "ℒ_"]
/-- `\{\\\\operatorname\*\{max\}` (a brace followed by a doubled backslash) -/
def patDblOpMax : List RPiece := [.lit "\x7b\\\\operatorname*\x7bmax\x7d"]
/-- `\{\\\\operatorname\*\{min\}` -/
def patDblOpMin : List RPiece := [.lit "\x7b\\\\operatorname*\x7bmin\x7d"]
/-- `\{\\\\operatorname\*\{arg\\,max\}` -/
def patDblOpArgMax : List RPiece := [.lit "\x7b\\\\operatorname*\x7barg\\,max\x7d"]
/-- `\{\\\\operatorname\*\{arg\\,min\}` -/
def patDblOpArgMin : List RPiece := [.lit "\x7b\\\\operatorname*\x7barg\\,min\x7d"]
/-- `\s*,\s*$` -/
def patTrailingComma : List RPiece := [.star clsWs, .lit ",", .star clsWs, .eos]
/-- `\s+` -/
def patWsRun : List RPiece := [.plus clsWs]

/-! ### The symbol table (omml_to_latex.py lines 15-65)

The Python dict literal lists `'∝'` twice with the same value; dict
insertion keeps the first position, so it appears once here. -/

def symbol_map : List (Char × String) :=
  [ -- Greek letters
    ('α', "\\alpha"), ('β', "\\beta"), ('γ', "\\gamma"), ('δ', "\\delta"),
    ('ε', "\\epsilon"), ('ζ', "\\zeta"), ('η', "\\eta"), ('θ', "\\theta"),
    ('ι', "\\iota"), ('κ', "\\kappa"), ('λ', "\\lambda"), ('μ', "\\mu"),
    ('ν', "\\nu"), ('ξ', "\\xi"), ('ο', "o"), ('π', "\\pi"),
    ('ρ', "\\rho"), ('σ', "\\sigma"), ('τ', "\\tau"), ('υ', "\\upsilon"),
    ('φ', "\\phi"), ('χ', "\\chi"), ('ψ', "\\psi"), ('ω', "\\omega"),
    ('ϕ', "\\phi"),
    -- Capital Greek letters
    ('Α', "A"), ('Β', "B"), ('Γ', "\\Gamma"), ('Δ', "\\Delta"),
    ('Ε', "E"), ('Ζ', "Z"), ('Η', "H"), ('Θ', "\\Theta"),
    ('Ι', "I"), ('Κ', "K"), ('Λ', "\\Lambda"), ('Μ', "M"),
    ('Ν', "N"), ('Ξ', "\\Xi"), ('Ο', "O"), ('Π', "\\Pi"),
    ('Ρ', "P"), ('Σ', "\\Sigma"), ('Τ', "T"), ('Υ', "\\Upsilon"),
    ('Φ', "\\Phi"), ('Χ', "X"), ('Ψ', "\\Psi"), ('Ω', "\\Omega"),
    -- Mathematical operators
    ('∞', "\\infty"), ('∑', "\\sum"), ('∫', "\\int"), ('∂', "\\partial"),
    ('∇', "\\nabla"), ('∆', "\\Delta"), ('∏', "\\prod"),
    -- Relations
    ('≤', "\\leq"), ('≥', "\\geq"), ('≠', "\\neq"), ('≈', "\\approx"),
    ('≡', "\\equiv"), ('∝', "\\propto"), ('∼', "\\sim"), ('~', "\\sim"),
    -- Set theory
    ('∈', "\\in"), ('∉', "\\notin"), ('⊂', "\\subset"), ('⊆', "\\subseteq"),
    ('⊃', "\\supset"), ('⊇', "\\supseteq"), ('∪', "\\cup"), ('∩', "\\cap"),
    ('∅', "\\emptyset"), ('∀', "\\forall"), ('∃', "\\exists"),
    -- Arrows
    ('→', "\\rightarrow"), ('←', "\\leftarrow"), ('↔', "\\leftrightarrow"),
    ('⇒', "\\Rightarrow"), ('⇐', "\\Leftarrow"), ('⇔', "\\Leftrightarrow"),
    ('↑', "\\uparrow"), ('↓', "\\downarrow"), ('↕', "\\updownarrow"),
    -- Other symbols
    ('±', "\\pm"), ('∓', "\\mp"), ('×', "\\times"), ('÷', "\\div"),
    ('·', "\\cdot"), ('∘', "\\circ"), ('√', "\\sqrt"),
    ('∠', "\\angle"), ('⊥', "\\perp"), ('∥', "\\parallel"),
    ('−', "-"), ('–', "-"), ('—', "-"),
    -- Special letters and symbols
    ('ℒ', "\\mathcal\x7bL\x7d"), ('ℰ', "\\mathcal\x7bE\x7d"), ('ℱ', "\\mathcal\x7bF\x7d"),
    ('ℋ', "\\mathcal\x7bH\x7d"), ('ℐ', "\\mathcal\x7bI\x7d"),
    ('ℳ', "\\mathcal\x7bM\x7d"), ('ℕ', "\\mathbb\x7bN\x7d"), ('ℙ', "\\mathbb\x7bP\x7d"),
    ('ℚ', "\\mathbb\x7bQ\x7d"), ('ℝ', "\\mathbb\x7bR\x7d"), ('ℤ', "\\mathbb\x7bZ\x7d"),
    ('ℂ', "\\mathbb\x7bC\x7d"), ('ℍ', "\\mathbb\x7bH\x7d"), ('ℬ', "\\mathcal\x7bB\x7d"),
    ('ℭ', "\\mathcal\x7bC\x7d"), ('ℯ', "e"), ('ℊ', "\\mathfrak\x7bg\x7d"),
    ('ℎ', "h"), ('ℏ', "\\hbar"), ('ℓ', "\\ell") ]

/-- The symbol-substitution loop of `convert_text` (lines 389-390):
`for symbol, latex in self.symbol_map.items(): text = text.replace(symbol, latex)`. -/
def applySymbolMap (text : String) : String :=
  symbol_map.foldl (fun t p => pyReplaceChar p.1 p.2 t) text

/-- `fix_mathematical_notation` (lines 407-456): the fixed sequence of
notation-repair substitutions, in source order.  The first three run only
when the text does not already contain `\mathbb{E}`. -/
def fix_mathematical_notation (text0 : String) : String :=
  let text :=
    if isSubstrOf "\\mathbb\x7bE\x7d" text0 then text0
    else
      let text := subAll patEUnderscore [.s "\\mathbb\x7bE\x7d_"] text0
      let text := subAll patEBracket [.s "\\mathbb\x7bE\x7d["] text
      subAll patBraceE [.s "\\mathbb\x7bE\x7d"] text
  let text := subAll patMaxUnderscore [.s "\\operatorname*\x7bmax\x7d_"] text
  let text := subAll patMinUnderscore [.s "\\operatorname*\x7bmin\x7d_"] text
  let text := subAll patArgMaxUnderscore [.s "\\operatorname*\x7barg\\,max\x7d_"] text
  let text := subAll patArgMinUnderscore [.s "\\operatorname*\x7barg\\,min\x7d_"] text
  let text := subAll patUndersetMax [.s "\\operatorname*\x7bmax\x7d_\x7b", .g 1, .s "\x7d"] text
  let text := subAll patUndersetMin [.s "\\operatorname*\x7bmin\x7d_\x7b", .g 1, .s "\x7d"] text
  let text := subAll patEqMinusSum [.s "=-\\sum_\x7b", .g 1, .s "\x7d"] text
  let text := subAll patEqSum [.s "=\\sum_\x7b", .g 1, .s "\x7d"] text
  let text := subAll patKLParallel [.s "KL[", .g 1, .s "\\parallel", .g 2, .s "]"] text
  let text := subAll patKLPipes [.s "KL[", .g 1, .s "\\parallel", .g 2, .s "]"] text
  let text := subAll patKLParen [.s "KL[", .g 1, .s "]"] text
  let text := subAll patCondProb [.g 1, .s "(", .g 2, .s "|", .g 4, .s ")"] text
  let text := subAll patLUnderscore [.s "\\mathcal\x7bL\x7d_"] text
  let text := subAll patDWord [.s "\\mathcal\x7bD\x7d"] text
  let text := subAll patProbSub [.s "p_\x7b", .g 1, .s "\x7d("] text
  let text := subAll patLogWord [.s "\\log "] text
  let text := subAll patInUpper [.s "\\in \\mathcal\x7b", .g 1, .s "\x7d"] text
  let text := subAll patLogPP [.s "\\log p_\x7b", .g 1, .s "\x7d(y|x,I)"] text
  let text := subAll patLogP [.s "\\log p_\x7b", .g 1, .s "\x7d(y|x,I)"] text
  text

/-- `convert_text` (lines 384-405): symbol substitution, removal of
equation numbers and standalone hash marks, then the notation fixes.
The argument is the element's `.text` field (`element.text or ""`). -/
def convert_text (txt : Option String) : String :=
  let text := txt.getD ""
  let text := applySymbolMap text
  let text := subAll patHashParen [] text
  let text := subAll patStandaloneHash [] text
  fix_mathematical_notation text

/-- `clean_subscript_notation` (lines 251-263).  The first two Python
replacement strings are `r'(\\1) \\in \\mathcal{\\2}'`: the doubled
backslashes make `re.sub` insert the literal characters `\1` and `\2`
rather than the captured groups, and the embedding reproduces that. -/
def clean_subscript_notation (text0 : String) : String :=
  let text := subAll patParenInUpper [.s "(\\1) \\in \\mathcal\x7b\\2\x7d"] text0
  let text := subAll patParenInMathcal [.s "(\\1) \\in \\mathcal\x7b\\2\x7d"] text
  subAll patInChar [.s "\\in"] text

/-- `clean_superscript_notation` (lines 265-268): the identity. -/
def clean_superscript_notation (text : String) : String := text

/-- The fixed command list of `add_spaces_after_latex_commands`
(lines 463-476), in source order. -/
def latex_commands : List String :=
  ["\\geq", "\\leq", "\\neq", "\\approx", "\\equiv", "\\propto", "\\sim",
   "\\in", "\\notin", "\\subset", "\\subseteq", "\\supset", "\\supseteq",
   "\\cup", "\\cap", "\\emptyset", "\\forall", "\\exists",
   "\\rightarrow", "\\leftarrow", "\\leftrightarrow", "\\Rightarrow",
   "\\Leftarrow", "\\Leftrightarrow", "\\uparrow", "\\downarrow", "\\updownarrow",
   "\\pm", "\\mp", "\\times", "\\div", "\\cdot", "\\circ", "\\sqrt",
   "\\angle", "\\perp", "\\parallel", "\\infty", "\\partial", "\\nabla",
   "\\alpha", "\\beta", "\\gamma", "\\delta", "\\epsilon", "\\zeta", "\\eta",
   "\\theta", "\\iota", "\\kappa", "\\lambda", "\\mu", "\\nu", "\\xi",
   "\\pi", "\\rho", "\\sigma", "\\tau", "\\upsilon", "\\phi", "\\chi",
   "\\psi", "\\omega", "\\Gamma", "\\Delta", "\\Theta", "\\Lambda", "\\Xi",
   "\\Pi", "\\Sigma", "\\Upsilon", "\\Phi", "\\Psi", "\\Omega"]

/-- `add_spaces_after_latex_commands` (lines 458-484): for each command in
list order, apply `re.sub(f'({cmd})(?=[a-zA-Z0-9])', r'\1 ', text)`. -/
def add_spaces_after_latex_commands (text : String) : String :=
  latex_commands.foldl
    (fun t cmd => subAll [.grpLit cmd, .lookAhead true clsAlnum] [.g 1, .s " "] t) text

/-- `fix_common_latex_issues` (lines 513-554), in source order.  The
`\blog\s+` fix runs only when the text does not contain a literal
double-backslash `\\log`; the `\mathbb\mathbb{E}` collapses run only when
the text contains `\mathbb\mathbb`. -/
def fix_common_latex_issues (s0 : String) : String :=
  let t := subAll patMinusSign [.s "-"] s0
  let t := subAll patProbSub [.s "p_\x7b", .g 1, .s "\x7d("] t
  let t := subAll patProbSubCond [.s "p_\x7b", .g 1, .s "\x7d(", .g 2, .s "|", .g 3, .s ")"] t
  let t := if isSubstrOf "\\\\log" t then t else subAll patLogWord [.s "\\log "] t
  let t := subAll patUndersetMax [.s "\\operatorname*\x7bmax\x7d_\x7b", .g 1, .s "\x7d"] t
  let t := subAll patUndersetMin [.s "\\operatorname*\x7bmin\x7d_\x7b", .g 1, .s "\x7d"] t
  let t :=
    if isSubstrOf "\\mathbb\\mathbb" t then
      let t := subAll patMathbb2E [.s "\\mathbb\x7bE\x7d"] t
      subAll patMathbb3E [.s "\\mathbb\x7bE\x7d"] t
    else t
  let t := subAll patKLParen [.s "KL[", .g 1, .s "]"] t
  let t := subAll patParallelMid [.g 1, .s "\\parallel"] t
  let t := subAll patParallelStart [.s "\\parallel"] t
  let t := subAll patBraceScriptL [.s "\\mathcal\x7bL\x7d"] t
  let t := subAll patScriptLUnderscore [.s "\\mathcal\x7bL\x7d_"] t
  let t := subAll patDblOpMax [.s "\x7b\\operatorname*\x7bmax\x7d"] t
  let t := subAll patDblOpMin [.s "\x7b\\operatorname*\x7bmin\x7d"] t
  let t := subAll patDblOpArgMax [.s "\x7b\\operatorname*\x7barg\\,max\x7d"] t
  let t := subAll patDblOpArgMin [.s "\x7b\\operatorname*\x7barg\\,min\x7d"] t
  t

/-- `clean_latex_output` (lines 486-511): the full final-cleanup repair
pipeline.  Empty input is returned unchanged (`if not latex_text`). -/
def clean_latex_output (latex_text : String) : String :=
  if latex_text = "" then latex_text
  else
    let t := subAll patHashParen [] latex_text
    let t := subAll patHashLeftRight [] t
    let t := subAll patStandaloneHash [] t
    let t := fix_common_latex_issues t
    let t := add_spaces_after_latex_commands t
    let t := subAll patTrailingComma [] t
    let t := subAll patWsRun [.s " "] t
    pyStrip t

/-! ### The MathNode tree (parsed XML elements as the converter sees them) -/

/-- An XML element: tag (possibly namespace-qualified), attributes, optional
text payload, ordered children.  Read-only input of the converter. -/
inductive Element where
  | mk (tag : String) (attrib : List (String × String)) (text : Option String)
       (children : List Element)

def Element.tag : Element → String
  | .mk t _ _ _ => t

def Element.attrib : Element → List (String × String)
  | .mk _ a _ _ => a

def Element.text : Element → Option String
  | .mk _ _ tx _ => tx

def Element.children : Element → List Element
  | .mk _ _ _ cs => cs

/-- Python `element.get(key, dflt)`. -/
def Element.getAttr (e : Element) (key dflt : String) : String :=
  match e.attrib.lookup key with
  | some v => v
  | none => dflt

/-- `element.tag.split('}')[-1] if '}' in element.tag else element.tag`:
the namespace-stripped local tag, used by every dispatch and role scan. -/
def localName (t : String) : String :=
  if t.data.contains '\x7d' then ⟨(t.data.reverse.takeWhile (fun c => !(c = '\x7d'))).reverse⟩
  else t

/-- The per-kind converters scan the children in order and keep the
conversion of the LAST child carrying a given local tag (each
`if tag == role: x = self.convert_element(child)` overwrites earlier
matches); an absent role stays `""`, which is exactly what
`convert_element` returns for `None`. -/
def lastWithTag (tg : String) (children : List Element) : Option Element :=
  (children.filter (fun c => localName c.tag = tg)).getLast?

/-- The `operator_map` of `convert_nary` (lines 224-232). -/
def nary_operator_map : List (String × String) :=
  [("∑", "\\sum"), ("∫", "\\int"), ("∏", "\\prod"), ("⋃", "\\bigcup"),
   ("⋂", "\\bigcap"), ("⋁", "\\bigvee"), ("⋀", "\\bigwedge")]

/-- `operator_map.get(char, char)` (line 234). -/
def naryOpLookup (char : String) : String :=
  match nary_operator_map.lookup char with
  | some v => v
  | none => char

/-- The `naryPr`/`chr` scan of `convert_nary` (lines 209-215):
`char = prop_child.get('val', '')`, last assignment winning. -/
def naryChr (children : List Element) : String :=
  children.foldl
    (fun acc c =>
      if localName c.tag = "naryPr" then
        c.children.foldl
          (fun acc2 pc => if localName pc.tag = "chr" then pc.getAttr "val" "" else acc2) acc
      else acc)
    ""

/-- The composition step of `convert_nary` (lines 242-249):
`op_{sub}^{sup} base`, `op_{sub} base`, `op^{sup} base` or `op base`
according to Python truthiness (non-emptiness) of sub/sup. -/
def naryCompose (latex_op sub sup base : String) : String :=
  if sub ≠ "" ∧ sup ≠ "" then
    latex_op ++ "_\x7b" ++ sub ++ "\x7d^\x7b" ++ sup ++ "\x7d " ++ base
  else if sub ≠ "" then
    latex_op ++ "_\x7b" ++ sub ++ "\x7d " ++ base
  else if sup ≠ "" then
    latex_op ++ "^\x7b" ++ sup ++ "\x7d " ++ base
  else
    latex_op ++ " " ++ base

/-! ### Per-kind converters.

Each takes the recursive conversion function `conv`
(Python: `self.convert_element`) as its first argument. -/

/-- The child loop shared by `convert_omath`, `convert_run`,
`convert_delimiter` and the unknown-kind fallback:
`for child in element: result += self.convert_element(child)`. -/
def convert_children (conv : Option Element → Option String) : List Element → Option String
  | [] => some ""
  | c :: cs => do
      let s ← conv (some c)
      let rest ← convert_children conv cs
      pure (s ++ rest)

/-- `convert_omath` (lines 119-124). -/
def convert_omath (conv : Option Element → Option String) (e : Element) : Option String :=
  convert_children conv e.children

/-- `convert_fraction` (lines 126-138). -/
def convert_fraction (conv : Option Element → Option String) (e : Element) : Option String := do
  let num ← conv (lastWithTag "num" e.children)
  let den ← conv (lastWithTag "den" e.children)
  pure ("\\frac\x7b" ++ num ++ "\x7d\x7b" ++ den ++ "\x7d")

/-- `convert_superscript` (lines 140-152). -/
def convert_superscript (conv : Option Element → Option String) (e : Element) : Option String := do
  let base ← conv (lastWithTag "e" e.children)
  let sup ← conv (lastWithTag "sup" e.children)
  pure ("\x7b" ++ base ++ "\x7d^\x7b" ++ sup ++ "\x7d")

/-- `convert_subscript` (lines 154-166). -/
def convert_subscript (conv : Option Element → Option String) (e : Element) : Option String := do
  let base ← conv (lastWithTag "e" e.children)
  let sub ← conv (lastWithTag "sub" e.children)
  pure ("\x7b" ++ base ++ "\x7d_\x7b" ++ sub ++ "\x7d")

/-- `convert_subsuperscript` (lines 168-183). -/
def convert_subsuperscript (conv : Option Element → Option String) (e : Element) : Option String := do
  let base ← conv (lastWithTag "e" e.children)
  let sub ← conv (lastWithTag "sub" e.children)
  let sup ← conv (lastWithTag "sup" e.children)
  pure ("\x7b" ++ base ++ "\x7d_\x7b" ++ sub ++ "\x7d^\x7b" ++ sup ++ "\x7d")

/-- `convert_radical` (lines 185-200). -/
def convert_radical (conv : Option Element → Option String) (e : Element) : Option String := do
  let deg ← conv (lastWithTag "deg" e.children)
  let base ← conv (lastWithTag "e" e.children)
  if deg ≠ "" then pure ("\\sqrt[" ++ deg ++ "]\x7b" ++ base ++ "\x7d")
  else pure ("\\sqrt\x7b" ++ base ++ "\x7d")

/-- `convert_nary` (lines 202-249). -/
def convert_nary (conv : Option Element → Option String) (e : Element) : Option String := do
  let char := naryChr e.children
  let sub ← conv (lastWithTag "sub" e.children)
  let sup ← conv (lastWithTag "sup" e.children)
  let base ← conv (lastWithTag "e" e.children)
  let latex_op := naryOpLookup char
  let sub := if sub ≠ "" then clean_subscript_notation sub else sub
  let sup := if sup ≠ "" then clean_superscript_notation sup else sup
  pure (naryCompose latex_op sub sup base)

/-- `convert_delimiter` (lines 270-276). -/
def convert_delimiter (conv : Option Element → Option String) (e : Element) : Option String := do
  let r ← convert_children conv e.children
  pure ("\\left( " ++ r ++ " \\right)")

/-- The cell loop of `convert_matrix`: every child of a row is converted. -/
def convert_cells (conv : Option Element → Option String) : List Element → Option (List String)
  | [] => some []
  | c :: cs => do
      let s ← conv (some c)
      let r ← convert_cells conv cs
      pure (s :: r)

/-- The row loop of `convert_matrix`: only `mr` children contribute, each as
`" & ".join(cells) + " \\\n"`. -/
def matrix_rows (conv : Option Element → Option String) : List Element → Option String
  | [] => some ""
  | c :: cs => do
      let rest ← matrix_rows conv cs
      if localName c.tag = "mr" then do
        let cells ← convert_cells conv c.children
        pure (joinSep " & " cells ++ " \\\\\n" ++ rest)
      else pure rest

/-- `convert_matrix` (lines 278-291). -/
def convert_matrix (conv : Option Element → Option String) (e : Element) : Option String := do
  let body ← matrix_rows conv e.children
  pure ("\\begin\x7bmatrix\x7d\n" ++ body ++ "\\end\x7bmatrix\x7d")

/-- `convert_function` (lines 293-305). -/
def convert_function (conv : Option Element → Option String) (e : Element) : Option String := do
  let func_name ← conv (lastWithTag "fName" e.children)
  let base ← conv (lastWithTag "e" e.children)
  pure ("\\" ++ func_name ++ "\x7b" ++ base ++ "\x7d")

/-- `convert_accent` (lines 307-315). -/
def convert_accent (conv : Option Element → Option String) (e : Element) : Option String := do
  let base ← conv (lastWithTag "e" e.children)
  pure ("\\hat\x7b" ++ base ++ "\x7d")

/-- `convert_bar` (lines 317-324). -/
def convert_bar (conv : Option Element → Option String) (e : Element) : Option String := do
  let base ← conv (lastWithTag "e" e.children)
  pure ("\\overline\x7b" ++ base ++ "\x7d")

/-- `convert_box` (lines 326-328): `return self.convert_element(element)` —
the box element ITSELF, not its children. -/
def convert_box (conv : Option Element → Option String) (e : Element) : Option String :=
  conv (some e)

/-- `convert_border_box` (lines 330-337). -/
def convert_border_box (conv : Option Element → Option String) (e : Element) : Option String := do
  let base ← conv (lastWithTag "e" e.children)
  pure ("\\boxed\x7b" ++ base ++ "\x7d")

/-- `convert_group_char` (lines 339-347). -/
def convert_group_char (conv : Option Element → Option String) (e : Element) : Option String := do
  let base ← conv (lastWithTag "e" e.children)
  pure ("\\underbrace\x7b" ++ base ++ "\x7d")

/-- `convert_limit_lower` (lines 349-361). -/
def convert_limit_lower (conv : Option Element → Option String) (e : Element) : Option String := do
  let base ← conv (lastWithTag "e" e.children)
  let lim ← conv (lastWithTag "lim" e.children)
  pure ("\\underset\x7b" ++ lim ++ "\x7d\x7b" ++ base ++ "\x7d")

/-- `convert_limit_upper` (lines 363-375). -/
def convert_limit_upper (conv : Option Element → Option String) (e : Element) : Option String := do
  let base ← conv (lastWithTag "e" e.children)
  let lim ← conv (lastWithTag "lim" e.children)
  pure ("\\overset\x7b" ++ lim ++ "\x7d\x7b" ++ base ++ "\x7d")

/-- `convert_run` (lines 377-382). -/
def convert_run (conv : Option Element → Option String) (e : Element) : Option String :=
  convert_children conv e.children

/-- `convert_element` (lines 67-117): the `None` guard, the tag dispatch in
source order, and the unknown-kind fallback (concatenate all children).
The fuel counts `convert_element` stack frames; fuel `0` (`none`) models
exhausting the recursion limit. -/
def convert_element : Nat → Option Element → Option String
  | 0, _ => none
  | _ + 1, none => some ""
  | fuel + 1, some e =>
      let conv := convert_element fuel
      let tag := localName e.tag
      if tag = "oMath" then convert_omath conv e
      else if tag = "f" then convert_fraction conv e
      else if tag = "sSup" then convert_superscript conv e
      else if tag = "sSub" then convert_subscript conv e
      else if tag = "sSubSup" then convert_subsuperscript conv e
      else if tag = "rad" then convert_radical conv e
      else if tag = "nary" then convert_nary conv e
      else if tag = "d" then convert_delimiter conv e
      else if tag = "m" then convert_matrix conv e
      else if tag = "func" then convert_function conv e
      else if tag = "acc" then convert_accent conv e
      else if tag = "bar" then convert_bar conv e
      else if tag = "box" then convert_box conv e
      else if tag = "borderBox" then convert_border_box conv e
      else if tag = "groupChr" then convert_group_char conv e
      else if tag = "limLow" then convert_limit_lower conv e
      else if tag = "limUpp" then convert_limit_upper conv e
      else if tag = "r" then convert_run conv e
      else if tag = "t" then some (convert_text e.text)
      else convert_children conv e.children

/-- `omml_to_latex` (lines 556-563): the top-level entry point.  The
`try/except` catching every exception (including `RecursionError`) is the
`none` branch. -/
def omml_to_latex (fuel : Nat) (omml_element : Element) : String :=
  match convert_element fuel (some omml_element) with
  | some result => clean_latex_output result
  | none => "[Math Formula]"

/-! ### The math-emitting part of the driver (docx2md.py) -/

/-- The "visually large" command substrings of the display heuristic
(docx2md.py line 211). -/
def display_math_commands : List String := ["\\frac", "\\sum", "\\int", "\\prod"]

/-- Lines 209-214 of `process_paragraph_element_recursively`: emit nothing
for an empty or fallback result; otherwise display block when the formula
is longer than 50 characters or contains a large command, else inline. -/
def emit_paragraph_math (latex_formula : String) : String :=
  if latex_formula ≠ "" ∧ latex_formula ≠ "[Math Formula]" then
    if 50 < latex_formula.length
        ∨ display_math_commands.any (fun cmd => isSubstrOf cmd latex_formula) = true then
      " $$\n" ++ latex_formula ++ "\n$$ "
    else
      " $" ++ latex_formula ++ "$ "
  else ""

/-- Lines 236-240 of `process_run_element`: math inside a run is ALWAYS
emitted inline, with no size/command test. -/
def emit_run_math (latex_formula : String) : String :=
  if latex_formula ≠ "" ∧ latex_formula ≠ "[Math Formula]" then
    " $" ++ latex_formula ++ "$ "
  else ""

/-- The child loop of `process_run_element` (lines 225-248): text children
contribute their payload, `oMath` children go through the converter and the
always-inline emission, everything else recurses (`recr`). -/
def process_run_children (recr : Element → Option String) (mathFuel : Nat) :
    List Element → Option String
  | [] => some ""
  | child :: rest => do
      let part ←
        match localName child.tag with
        | "t" => some (child.text.getD "")
        | "oMath" => some (emit_run_math (omml_to_latex mathFuel child))
        | _ => recr child
      let rs ← process_run_children recr mathFuel rest
      pure (part ++ rs)

/-- `process_run_element` (lines 225-248), fuel bounding its recursion into
nested children. -/
def process_run_element : Nat → Element → Option String
  | 0, _ => none
  | fuel + 1, run_element =>
      process_run_children (process_run_element fuel) fuel run_element.children

/-- The child loop of `process_paragraph_element_recursively`
(lines 191-222): `r` children go to `process_run_element`, `oMath` children
go through the converter and the display/inline policy, everything else
recurses. -/
def process_paragraph_children (recr : Element → Option String) (mathFuel : Nat) :
    List Element → Option String
  | [] => some ""
  | child :: rest => do
      let part ←
        match localName child.tag with
        | "r" => process_run_element mathFuel child
        | "oMath" => some (emit_paragraph_math (omml_to_latex mathFuel child))
        | _ => recr child
      let rs ← process_paragraph_children recr mathFuel rest
      pure (part ++ rs)

/-- `process_paragraph_element_recursively` (lines 191-222). -/
def process_paragraph_element_recursively : Nat → Element → Option String
  | 0, _ => none
  | fuel + 1, element =>
      process_paragraph_children (process_paragraph_element_recursively fuel) fuel
        element.children

/-! ### Helper lemmas and concrete fixture trees -/

/-- The child loop is exactly "convert each child in order and concatenate",
failing iff some child conversion fails. -/
theorem convert_children_eq_mapM (conv : Option Element → Option String)
    (cs : List Element) :
    convert_children conv cs
      = (cs.mapM (fun c => conv (some c))).map concatStrings := by
  induction cs with
  | nil => rfl
  | cons c cs ih =>
      simp only [convert_children, List.mapM_cons, ih]
      cases conv (some c) with
      | none => rfl
      | some s =>
          cases hm : cs.mapM (fun c => conv (some c)) with
          | none => simp [Option.bind, hm]
          | some l => simp [Option.bind, hm, concatStrings]

/-- A text leaf. -/
def tleaf (s : String) : Element := .mk "t" [] (some s) []

/-- A run element wrapping one text leaf. -/
def runOf (s : String) : Element := .mk "r" [] none [tleaf s]

/-- A `box` element wrapping one text leaf. -/
def boxAbc : Element := .mk "box" [] none [tleaf "abc"]

/-- A node with an unrecognized kind tag wrapping one text leaf. -/
def unknownAbc : Element := .mk "weird" [] none [tleaf "abc"]

/-- The n-ary example of the specification: `∑` with subscript `i=1`,
superscript `n`, base `i`. -/
def naryExample : Element :=
  .mk "nary" [] none
    [ .mk "naryPr" [] none [.mk "chr" [("val", "∑")] none []],
      .mk "sub" [] none [runOf "i=1"],
      .mk "sup" [] none [runOf "n"],
      .mk "e" [] none [runOf "i"] ]

/-- An `oMath` formula whose conversion is `\frac{1}{2}`. -/
def fracTree : Element :=
  .mk "oMath" [] none
    [.mk "f" [] none [.mk "num" [] none [runOf "1"], .mk "den" [] none [runOf "2"]]]

/-- A paragraph whose formula sits INSIDE a run element. -/
def paraWithRunMath : Element := .mk "p" [] none [.mk "r" [] none [fracTree]]

/-- An `oMath` formula whose text leaf is literally the fallback string. -/
def mathFormulaLeafTree : Element := .mk "oMath" [] none [runOf "[Math Formula]"]

/-- A paragraph containing `mathFormulaLeafTree` directly. -/
def paraWithMathFormulaLeaf : Element := .mk "p" [] none [mathFormulaLeafTree]

/-- An `oMath` formula whose text leaf is `∞`. -/
def inftyTree : Element := .mk "oMath" [] none [runOf "∞"]

/-- The kind tags recognized by `convert_element`'s dispatch, in source
order. -/
def recognized_tags : List String :=
  ["oMath", "f", "sSup", "sSub", "sSubSup", "rad", "nary", "d", "m", "func",
   "acc", "bar", "box", "borderBox", "groupChr", "limLow", "limUpp", "r", "t"]

/-! ### Lemmas for the symbol-substitution claim -/

/-- Keys of the symbol table lie outside the plain-ASCII-minus-tilde
repertoire that every replacement value is drawn from. -/
def isKeyLikeChar (c : Char) : Bool := 128 ≤ c.toNat || c = '~'

theorem symbol_keys_keylike :
    symbol_map.all (fun p => isKeyLikeChar p.1) = true := by decide

theorem symbol_values_plain :
    symbol_map.all (fun p => p.2.data.all (fun c => !isKeyLikeChar c)) = true := by decide

theorem mem_pyReplaceChar {c : Char} {key : Char} {v : String} {s : String}
    (h : c ∈ (pyReplaceChar key v s).data) : c ∈ v.data ∨ c ∈ s.data := by
  simp only [pyReplaceChar, List.mem_flatMap] at h
  obtain ⟨a, ha, hc⟩ := h
  by_cases hak : a = key
  · simp [hak] at hc
    exact Or.inl hc
  · simp [hak] at hc
    subst hc
    exact Or.inr ha

theorem not_mem_pyReplaceChar_self {c : Char} {v : String} (s : String)
    (h : c ∉ v.data) : c ∉ (pyReplaceChar c v s).data := by
  simp only [pyReplaceChar, List.mem_flatMap]
  rintro ⟨a, ha, hc⟩
  by_cases hak : a = c
  · simp [hak] at hc
    exact h hc
  · simp [hak] at hc
    exact hak hc.symm

/-- Once a key-repertoire character is absent, no later replacement (whose
inserted text is plain) can reintroduce it. -/
theorem keylike_not_mem_fold {c : Char}
    (hk : isKeyLikeChar c = true) :
    ∀ (l : List (Char × String)) (s : String),
      (∀ p ∈ l, p.2.data.all (fun d => !isKeyLikeChar d) = true) →
      c ∉ s.data →
      c ∉ (l.foldl (fun t p => pyReplaceChar p.1 p.2 t) s).data := by
  intro l
  induction l with
  | nil => intro s _ hs; exact hs
  | cons p l ih =>
      intro s hall hs
      rw [List.foldl_cons]
      refine ih (pyReplaceChar p.1 p.2 s) (fun q hq => hall q (List.mem_cons_of_mem p hq)) ?_
      intro hmem
      rcases mem_pyReplaceChar hmem with hv | hs'
      · have := (List.all_eq_true.mp (hall p (List.mem_cons_self p l))) c hv
        simp [hk] at this
      · exact hs hs'

/-- Processing the table removes every occurrence of each key: its own pass
erases it, and no later pass can put it back. -/
theorem key_gone_after_fold {c : Char} {v : String}
    (hk : isKeyLikeChar c = true) :
    ∀ (l : List (Char × String)) (s : String),
      (c, v) ∈ l →
      (∀ p ∈ l, p.2.data.all (fun d => !isKeyLikeChar d) = true) →
      c ∉ (l.foldl (fun t p => pyReplaceChar p.1 p.2 t) s).data := by
  intro l
  induction l with
  | nil => intro s hmem _; cases hmem
  | cons p l ih =>
      intro s hmem hall
      rw [List.foldl_cons]
      rcases List.mem_cons.mp hmem with heq | htail
      · have hvplain : p.2.data.all (fun d => !isKeyLikeChar d) = true :=
          hall p (List.mem_cons_self p l)
        have hvnotc : c ∉ p.2.data := by
          intro hv
          have := (List.all_eq_true.mp hvplain) c hv
          simp [hk] at this
        have hp1 : p.1 = c := by rw [← heq]
        have hgone : c ∉ (pyReplaceChar p.1 p.2 s).data := by
          rw [hp1]
          exact not_mem_pyReplaceChar_self s hvnotc
        exact keylike_not_mem_fold hk l (pyReplaceChar p.1 p.2 s)
          (fun q hq => hall q (List.mem_cons_of_mem p hq)) hgone
      · exact ih (pyReplaceChar p.1 p.2 s) htail
          (fun q hq => hall q (List.mem_cons_of_mem p hq))

/-! ### The claims -/

/-- C1: the claim says conversion of a `box` node terminates and yields the
pass-through conversion of its children.  The code instead calls
`convert_element` on the box element ITSELF (`convert_box`, line 327), so
dispatch loops forever: for every recursion budget, converting a box node
exhausts the budget (Python: `RecursionError` at any stack depth) instead
of returning its children's conversion. -/
theorem c1_box_conversion_diverges :
    ∀ fuel : Nat, convert_element fuel (some boxAbc) = none := by
  intro fuel
  induction fuel with
  | zero => rfl
  | succ n ih => exact ih

/-- C2: the top-level entry point `omml_to_latex` never raises: for every
input element and recursion budget it returns either the cleaned conversion
result or exactly the literal string `[Math Formula]`, and when the
conversion fails no partial output is returned — the whole formula becomes
the fallback string. -/
theorem c2_omml_to_latex_total_fallback :
    ∀ (fuel : Nat) (e : Element),
      (∃ r, convert_element fuel (some e) = some r
          ∧ omml_to_latex fuel e = clean_latex_output r)
        ∨ omml_to_latex fuel e = "[Math Formula]" := by
  intro fuel e
  cases h : convert_element fuel (some e) with
  | none => right; simp [omml_to_latex, h]
  | some r => left; exact ⟨r, rfl, by simp [omml_to_latex, h]⟩

/-- C3 counterexample: the full final-cleanup pipeline is NOT idempotent.
The trailing-comma strip (`\s*,\s*$`) removes one comma per run, so
`"a,,"` cleans to `"a,"` and cleans again to `"a"`. -/
theorem c3_clean_latex_output_not_idempotent :
    clean_latex_output "a,," = "a," ∧ clean_latex_output "a," = "a" ∧
      ¬ clean_latex_output (clean_latex_output "a,,") = clean_latex_output "a,," := by
  refine ⟨?_, ?_, ?_⟩ <;> decide

/-- C3 amended: running the pipeline twice yields the same string as
running it once only for strings on which a single pass already reaches a
fixed point; in general a second pass can change the output further (for
example `"a,,"` → `"a,"` → `"a"`). -/
theorem c3_clean_latex_output_fixed_point :
    ∀ s : String, clean_latex_output s = s →
      clean_latex_output (clean_latex_output s) = clean_latex_output s := by
  intro s h
  rw [h]
  exact h

/-- Witness for C3 amended at the fixed point `"a"`. -/
theorem c3_fixed_point_witness :
    clean_latex_output "a" = "a" ∧
      clean_latex_output (clean_latex_output "a") = clean_latex_output "a" :=
  ⟨by decide, c3_clean_latex_output_fixed_point "a" (by decide)⟩

/-- C4: a node whose local tag is not in the recognized vocabulary converts
to the concatenation, in child order, of converting each of its children;
in particular an unknown-kind node wrapping the single text leaf `"abc"`
converts to `"abc"` unchanged. -/
theorem c4_unknown_kind_concatenates :
    (∀ (fuel : Nat) (e : Element), localName e.tag ∉ recognized_tags →
        convert_element (fuel + 1) (some e)
          = (e.children.mapM (fun c => convert_element fuel (some c))).map concatStrings) ∧
      convert_element 3 (some unknownAbc) = some "abc" := by
  constructor
  · intro fuel e h
    simp only [recognized_tags, List.mem_cons, List.mem_singleton, not_or] at h
    obtain ⟨h1, h2, h3, h4, h5, h6, h7, h8, h9, h10, h11, h12, h13, h14, h15, h16, h17,
      h18, h19, -⟩ := h
    rw [← convert_children_eq_mapM]
    simp only [convert_element]
    rw [if_neg h1, if_neg h2, if_neg h3, if_neg h4, if_neg h5, if_neg h6, if_neg h7,
        if_neg h8, if_neg h9, if_neg h10, if_neg h11, if_neg h12, if_neg h13, if_neg h14,
        if_neg h15, if_neg h16, if_neg h17, if_neg h18, if_neg h19]
  · decide

/-- Witness for C4 at the concrete unknown-kind node `unknownAbc`. -/
theorem c4_unknown_kind_witness :
    convert_element 3 (some unknownAbc)
      = (unknownAbc.children.mapM (fun c => convert_element 2 (some c))).map concatStrings :=
  c4_unknown_kind_concatenates.1 2 unknownAbc (by decide)

/-- C5: the n-ary operator character is mapped through the fixed table
(unmapped characters pass through literally) and the result is composed as
`op_{sub}^{sup} base`, `op_{sub} base`, `op^{sup} base` or `op base`
according to which of the converted sub/sup are non-empty; the
specification's example (`∑`, sub `i=1`, sup `n`, base `i`) converts to
`\sum_{i=1}^{n} i`. -/
theorem c5_nary_operator_composition :
    (naryOpLookup "∑" = "\\sum" ∧ naryOpLookup "∫" = "\\int" ∧
      naryOpLookup "∏" = "\\prod" ∧ naryOpLookup "⋃" = "\\bigcup" ∧
      naryOpLookup "⋂" = "\\bigcap" ∧ naryOpLookup "⋁" = "\\bigvee" ∧
      naryOpLookup "⋀" = "\\bigwedge") ∧
    (∀ c, nary_operator_map.lookup c = none → naryOpLookup c = c) ∧
    (∀ op sub sup base : String,
      (sub ≠ "" → sup ≠ "" →
        naryCompose op sub sup base
          = op ++ "_\x7b" ++ sub ++ "\x7d^\x7b" ++ sup ++ "\x7d " ++ base) ∧
      (sub ≠ "" → sup = "" →
        naryCompose op sub sup base = op ++ "_\x7b" ++ sub ++ "\x7d " ++ base) ∧
      (sub = "" → sup ≠ "" →
        naryCompose op sub sup base = op ++ "^\x7b" ++ sup ++ "\x7d " ++ base) ∧
      (sub = "" → sup = "" → naryCompose op sub sup base = op ++ " " ++ base)) ∧
    convert_element 5 (some naryExample) = some "\\sum_\x7bi=1\x7d^\x7bn\x7d i" := by
  refine ⟨⟨rfl, rfl, rfl, rfl, rfl, rfl, rfl⟩, ?_, ?_, ?_⟩
  · intro c h
    simp [naryOpLookup, h]
  · intro op sub sup base
    refine ⟨?_, ?_, ?_, ?_⟩ <;> intro hs hp <;> simp [naryCompose, hs, hp]
  · decide

/-- Witness for C5's composition shapes and pass-through lookup at concrete
arguments. -/
theorem c5_nary_witness :
    naryCompose "\\int" "a" "" "x" = "\\int_\x7ba\x7d x" ∧ naryOpLookup "Q" = "Q" :=
  ⟨(c5_nary_operator_composition.2.2.1 "\\int" "a" "" "x").2.1 (by decide) rfl,
    c5_nary_operator_composition.2.1 "Q" (by decide)⟩

/-- C6: after the symbol-substitution step of `convert_text`, no occurrence
of any symbol-table key remains in the text (keys are single characters,
so none can be partially substituted): every key's own pass replaces all
its occurrences, and no later replacement value can reintroduce one. -/
theorem c6_symbol_substitution_complete :
    ∀ (s : String) (k : Char) (v : String),
      (k, v) ∈ symbol_map → k ∉ (applySymbolMap s).data := by
  intro s k v hmem
  have hk : isKeyLikeChar k = true :=
    (List.all_eq_true.mp symbol_keys_keylike) (k, v) hmem
  exact key_gone_after_fold hk symbol_map s hmem
    (fun p hp => (List.all_eq_true.mp symbol_values_plain) p hp)

/-- Witness for C6 at the key `α` and the text `"αβ+1"`. -/
theorem c6_symbol_substitution_witness :
    ('α', "\\alpha") ∈ symbol_map ∧ 'α' ∉ (applySymbolMap "αβ+1").data :=
  ⟨by decide, c6_symbol_substitution_complete "αβ+1" 'α' "\\alpha" (by decide)⟩

/-- C7 counterexample: the display/inline policy does NOT govern every
formula.  A formula that sits inside a run element (`r`) is always emitted
inline by `process_run_element`, even when it contains `\frac` and the
policy demands a display block. -/
theorem c7_display_policy_not_in_runs :
    omml_to_latex 9 fracTree = "\\frac\x7b1\x7d\x7b2\x7d" ∧
    isSubstrOf "\\frac" "\\frac\x7b1\x7d\x7b2\x7d" = true ∧
    process_paragraph_element_recursively 11 paraWithRunMath
      = some " $\\frac\x7b1\x7d\x7b2\x7d$ " ∧
    " $\\frac\x7b1\x7d\x7b2\x7d$ " ≠ " $$\n\\frac\x7b1\x7d\x7b2\x7d\n$$ " := by
  refine ⟨?_, ?_, ?_, ?_⟩ <;> decide

/-- C7 amended: the length-over-50-or-large-command policy governs formulas
whose math element is met at paragraph level (`emit_paragraph_math`,
docx2md.py lines 209-214); a formula inside a run element is always
emitted inline (`emit_run_math`, lines 236-240). -/
theorem c7_display_policy_amended :
    (∀ L : String, L ≠ "" → L ≠ "[Math Formula]" →
        ((50 < L.length
            ∨ display_math_commands.any (fun cmd => isSubstrOf cmd L) = true) →
          emit_paragraph_math L = " $$\n" ++ L ++ "\n$$ ") ∧
        (¬ (50 < L.length
            ∨ display_math_commands.any (fun cmd => isSubstrOf cmd L) = true) →
          emit_paragraph_math L = " $" ++ L ++ "$ ")) ∧
    (∀ L : String, L ≠ "" → L ≠ "[Math Formula]" →
        emit_run_math L = " $" ++ L ++ "$ ") := by
  constructor
  · intro L h1 h2
    constructor <;> intro hc
    · unfold emit_paragraph_math
      rw [if_pos ⟨h1, h2⟩, if_pos hc]
    · unfold emit_paragraph_math
      rw [if_pos ⟨h1, h2⟩, if_neg hc]
  · intro L h1 h2
    unfold emit_run_math
    rw [if_pos ⟨h1, h2⟩]

/-- Witness for C7 amended: a `\sum` formula is a display block at
paragraph level and inline inside a run. -/
theorem c7_display_policy_witness :
    emit_paragraph_math "\\sum x" = " $$\n\\sum x\n$$ " ∧
      emit_run_math "\\sum x" = " $\\sum x$ " :=
  ⟨(c7_display_policy_amended.1 "\\sum x" (by decide) (by decide)).1 (by decide),
    c7_display_policy_amended.2 "\\sum x" (by decide) (by decide)⟩

/-- C8: the claim says a listed command that is a proper prefix of another
listed command (e.g. `\in` within `\infty`) is never split.  The code
processes the command list in order, and `\in` comes before `\infty`, so
`add_spaces_after_latex_commands` rewrites `\infty` to `\in fty`; a formula
whose text leaf is `∞` therefore leaves the whole pipeline as `\in fty`. -/
theorem c8_infty_command_split :
    add_spaces_after_latex_commands "\\infty" = "\\in fty" ∧
      omml_to_latex 4 inftyTree = "\\in fty" := by
  constructor <;> decide

/-- C9 counterexample: a successful conversion CAN return exactly the
fallback string — a formula whose text leaf is literally `[Math Formula]`
converts, without any internal failure, to `[Math Formula]`. -/
theorem c9_fallback_collision :
    convert_element 4 (some mathFormulaLeafTree) = some "[Math Formula]" ∧
      omml_to_latex 4 mathFormulaLeafTree = "[Math Formula]" := by
  constructor <;> decide

/-- C9 amended: the fallback value is NOT distinguishable from every
genuine formula output: a tree whose leaf text is the literal fallback
string converts successfully to exactly that string, and the caller's
suppression policy consequently suppresses this genuine formula (the
paragraph renders as the empty string). -/
theorem c9_fallback_collision_amended :
    convert_element 5 (some mathFormulaLeafTree) = some "[Math Formula]" ∧
      process_paragraph_element_recursively 6 paraWithMathFormulaLeaf = some "" := by
  constructor <;> decide

/-- C10: called on `None` (no element at all), `convert_element` returns
the empty string rather than raising, whatever recursion budget remains. -/
theorem c10_none_returns_empty :
    ∀ fuel : Nat, convert_element (fuel + 1) none = some "" := by
  intro fuel
  rfl
